import Mathlib

/-!
Shallow embedding of the post-collection engine of `Facebook_scraper.py`
(`FacebookScraper.scrape_posts`, `FacebookScraper.load_white_list`) and of the
spec's Dedup/Filter Gate, Content Extractor and Collection Engine loop.

The browser/DOM is modelled as an environment: a list of scroll cycles, each
carrying the fragments visible during that pass of the `for elem in elements`
loop, together with the page heights and fragment counts observed by the
scroll-wait (lines 338-361 of the source) and the wall-clock sample taken at
the timeout check (line 357).  Python strings are Lean `String`s; a Python
`None`-able variable is an `Option`; `entry in link` (substring test) is
`subOfChars`; machine time is `Nat`.
-/

namespace FbScraper

/-- Substring test on character lists: does the first list occur as a
contiguous run inside the second?  This is Python's `needle in hay`. -/
def prefixOfChars : List Char → List Char → Bool
  | [], _ => true
  | _ :: _, [] => false
  | c :: cs, d :: ds => c == d && prefixOfChars cs ds

/-- Python's `in` on strings, as a scan over the haystack. -/
def subOfChars (needle : List Char) : List Char → Bool
  | [] => prefixOfChars needle []
  | d :: ds => prefixOfChars needle (d :: ds) || subOfChars needle ds

/-- `strIn needle hay` is Python's `needle in hay` for strings. -/
def strIn (needle hay : String) : Bool :=
  subOfChars needle.data hay.data

/-- The whitespace characters removed by Python's `str.strip()`. -/
def isSpaceChar (c : Char) : Bool :=
  c == ' ' || c == '\t' || c == '\n' || c == '\r' || c == '\x0b' || c == '\x0c'

/-- Drop leading whitespace from a character list. -/
def dropLeadingSpace : List Char → List Char
  | [] => []
  | c :: cs => if isSpaceChar c then dropLeadingSpace cs else c :: cs

/-- Python's `str.strip()`: remove whitespace from both ends. -/
def pyStrip (s : String) : String :=
  ⟨((dropLeadingSpace (dropLeadingSpace s.data).reverse)).reverse⟩

/-- The dictionary yielded at line 334 of the source: one scraped post. -/
structure PostRecord where
  name : Option String
  text : String
  link : Option String
  date : Option String
  images : List String
  videos : List (Option String)
  keyword : String
deriving DecidableEq

/-- Outcome of the permalink/timestamp/author sub-step (source lines 273-316).
The inner `try` assigns `post_date` (line 298), then `link` (line 304), then
`poster_name` (lines 307-310); an exception at any point is swallowed at line
315, keeping whatever was assigned before it.  `fail0`: exception before the
date was read; `fail1`: date read, exception before the link; `fail2`: date
and link read, both author selectors failed; `fail3`: all three read, the
back-navigation (lines 313-314) failed; `ok`: sub-step completed. -/
inductive SubStepResult where
  | fail0 : SubStepResult
  | fail1 (date : String) : SubStepResult
  | fail2 (date lnk : String) : SubStepResult
  | fail3 (date lnk nm : String) : SubStepResult
  | ok (date lnk nm : String) : SubStepResult
deriving DecidableEq

/-- The `(link, date, name)` triple left in the local variables after the
permalink/timestamp/author sub-step ran. -/
def subStepFields : SubStepResult → Option String × Option String × Option String
  | .fail0 => (none, none, none)
  | .fail1 d => (none, some d, none)
  | .fail2 d l => (some l, some d, none)
  | .fail3 d l n => (some l, some d, some n)
  | .ok d l n => (some l, some d, some n)

/-- One DOM fragment matched by the post selector (one `elem` of line 240).
`hasStory`: the mandatory `story_message` element is present (line 255);
`storyText`: its raw text; `imgSrcs`: the `src` attributes of the descendant
images in DOM order (`none` = attribute absent, which makes the Python
membership test at line 261 raise); `videoAnchorOk`: every descendant video
has an enclosing anchor (line 265); `videoHrefs`: those anchors' `href`
attributes in DOM order; `subStep`: how the fragile sub-step went. -/
structure Fragment where
  hasStory : Bool
  storyText : String
  imgSrcs : List (Option String)
  videoAnchorOk : Bool
  videoHrefs : List (Option String)
  subStep : SubStepResult
deriving DecidableEq

/-- The Content Extractor: source lines 254-316 up to (not including) the
whitelist check.  Returns `none` when the enclosing `try` aborts the fragment:
missing story body, a `None` image `src` (TypeError at line 261), or a video
with no anchor ancestor (line 265). -/
def extractRecord (keyword : String) (f : Fragment) : Option PostRecord :=
  if f.hasStory = false then none
  else if f.imgSrcs.any (fun s => s.isNone) then none
  else if f.videoAnchorOk = false then none
  else
    some { name := (subStepFields f.subStep).2.2
           text := pyStrip f.storyText
           link := (subStepFields f.subStep).1
           date := (subStepFields f.subStep).2.1
           images := (f.imgSrcs.filterMap id).filter (fun s => !(strIn "emoji.php" s))
           videos := f.videoHrefs
           keyword := keyword }

/-- The `skip_post` flag of source lines 319-325: `if link:` is Python
truthiness, so the whitelist scan runs only for a present, non-empty link. -/
def linkSkip (whitelist : List String) : Option String → Bool
  | some s => (s != "") && whitelist.any (fun e => strIn e s)
  | none => false

/-- The Dedup/Filter Gate: source lines 318-334.  The duplicate test
`link in url_crawled` and the append run for every link value, `None`
included. -/
def admitGate (whitelist : List String) (url_crawled : List (Option String))
    (r : PostRecord) : List (Option String) × Option PostRecord :=
  if linkSkip whitelist r.link then (url_crawled, none)
  else if r.link ∈ url_crawled then (url_crawled, none)
  else (url_crawled ++ [r.link], some r)

/-- Extraction followed by the gate for a single fragment; an aborted
extraction leaves the crawl state untouched and yields nothing. -/
def processFragment (whitelist : List String) (keyword : String)
    (url_crawled : List (Option String)) (f : Fragment) :
    List (Option String) × Option PostRecord :=
  match extractRecord keyword f with
  | none => (url_crawled, none)
  | some r => admitGate whitelist url_crawled r

/-- The `for elem in elements` loop (lines 240-336): fragments in DOM order,
stopping as soon as `len(url_crawled) >= max_posts` (line 241). -/
def processFragments (whitelist : List String) (max_posts : Nat) (keyword : String) :
    List (Option String) → List Fragment → List (Option String) × List PostRecord
  | st, [] => (st, [])
  | st, f :: fs =>
    if max_posts ≤ st.length then (st, [])
    else
      ((processFragments whitelist max_posts keyword (processFragment whitelist keyword st f).1 fs).1,
       (processFragment whitelist keyword st f).2.toList ++
         (processFragments whitelist max_posts keyword (processFragment whitelist keyword st f).1 fs).2)

/-- What the environment exposes to one iteration of the `while` loop:
the visible fragments, the height/count pair read at lines 340-341 after the
scroll command, the height read at line 348 after the bounded wait, the
fragment count the wait observed, and the `time.time()` sample of line 357. -/
structure ScrollCycle where
  fragments : List Fragment
  initHeight : Nat
  newHeight : Nat
  initCount : Nat
  newCount : Nat
  timeNow : Nat
deriving DecidableEq

/-- The spec's `scrollForMore.grew`: the wait condition of lines 344-345 —
page height or visible-fragment count increased. -/
def cycleGrew (c : ScrollCycle) : Bool :=
  decide (c.initHeight < c.newHeight) || decide (c.initCount < c.newCount)

/-- The per-keyword mutable state of the `while` loop (lines 230-232). -/
structure CrawlState where
  url_crawled : List (Option String)
  last_height : Nat
  scroll_attempts : Nat
deriving DecidableEq

/-- The update of `scroll_attempts` at source lines 351-355: bumped when
`new_height == last_height`, reset to 0 otherwise. -/
def updateAttempts (st : CrawlState) (c : ScrollCycle) : Nat :=
  if c.newHeight = st.last_height then st.scroll_attempts + 1 else 0

/-- The `while` loop of lines 236-361.  Guard: `len(url_crawled) < max_posts
and scroll_attempts < 5`.  After the fragments pass, `scroll_attempts` is
updated (lines 351-355); the timeout break (line 357) fires after that
update but before `last_height` is overwritten (line 361). -/
def runCycles (whitelist : List String) (max_posts : Nat) (keyword : String)
    (deadline : Nat) : CrawlState → List ScrollCycle → List PostRecord × CrawlState
  | st, [] => ([], st)
  | st, c :: cs =>
    if st.url_crawled.length < max_posts ∧ st.scroll_attempts < 5 then
      if deadline < c.timeNow then
        ((processFragments whitelist max_posts keyword st.url_crawled c.fragments).2,
         ⟨(processFragments whitelist max_posts keyword st.url_crawled c.fragments).1,
          st.last_height, updateAttempts st c⟩)
      else
        ((processFragments whitelist max_posts keyword st.url_crawled c.fragments).2 ++
           (runCycles whitelist max_posts keyword deadline
             ⟨(processFragments whitelist max_posts keyword st.url_crawled c.fragments).1,
              c.newHeight, updateAttempts st c⟩ cs).1,
         (runCycles whitelist max_posts keyword deadline
             ⟨(processFragments whitelist max_posts keyword st.url_crawled c.fragments).1,
              c.newHeight, updateAttempts st c⟩ cs).2)
    else ([], st)

/-- `FacebookScraper.load_white_list` (lines 120-137): `none` models a
`FileNotFoundError` (empty denylist); otherwise each line is stripped and
blank lines are dropped. -/
def load_white_list : Option (List String) → List String
  | none => []
  | some ls => (ls.map pyStrip).filter (fun l => !(l == ""))

/-- The whole environment of one `scrape_posts` call: whether the search
block (lines 203-227) succeeded, the configured denylist file
(`none` = no `white_list` configured, `some none` = file missing), the page
height read at line 231, the `time.time()` of line 233, and the scroll
cycles the page serves. -/
structure ScrapeEnv where
  searchOk : Bool
  whiteListFile : Option (Option (List String))
  initHeight : Nat
  t0 : Nat
  cycles : List ScrollCycle
deriving DecidableEq

/-- The denylist entries in force during a call (line 234). -/
def envWhitelist (e : ScrapeEnv) : List String :=
  match e.whiteListFile with
  | none => []
  | some f => load_white_list f

/-- `FacebookScraper.scrape_posts` (lines 189-363) as the finite sequence of
records the generator yields: a failed search yields nothing (line 227);
otherwise the collection loop starts from an empty `url_crawled`, zero
`scroll_attempts`, and deadline `t0 + max_posts * 5` (line 233). -/
def scrape_posts (e : ScrapeEnv) (keyword : String) (max_posts : Nat) :
    List PostRecord :=
  if e.searchOk = false then []
  else (runCycles (envWhitelist e) max_posts keyword (e.t0 + max_posts * 5)
         ⟨[], e.initHeight, 0⟩ e.cycles).1

/-! ### Concrete fixtures for witnesses and counterexamples -/

/-- A fragment with a story body, no media, and the given sub-step outcome. -/
def plainFrag (t : String) (ss : SubStepResult) : Fragment :=
  ⟨true, t, [], true, [], ss⟩

/-- A cycle with no fragments whose height is unchanged (10 → 10) but whose
visible-fragment count grew (1 → 2): `scrollForMore` reports growth, the
code's counter sees a stall. -/
def stallCycle : ScrollCycle := ⟨[], 10, 10, 1, 2, 0⟩

/-- A cycle carrying one admissible link-less fragment; its count also grew. -/
def lateCycle : ScrollCycle :=
  ⟨[plainFrag "late" SubStepResult.fail0], 10, 10, 0, 1, 0⟩

/-- Five growth-reporting height-stall cycles, then a cycle with a post. -/
def envStall : ScrapeEnv :=
  ⟨true, none, 10, 0, [stallCycle, stallCycle, stallCycle, stallCycle, stallCycle, lateCycle]⟩

/-- The post-bearing cycle alone, as served directly. -/
def envNoStall : ScrapeEnv := ⟨true, none, 10, 0, [lateCycle]⟩

/-- Two extractable link-less fragments in one batch. -/
def fragA : Fragment := plainFrag "first" SubStepResult.fail0

/-- Second link-less fragment, differing only in text. -/
def fragB : Fragment := plainFrag "second" SubStepResult.fail0

/-- The record extracted from `fragA`. -/
def recA : PostRecord := ⟨none, "first", none, none, [], [], "k"⟩

/-- The record extracted from `fragB`. -/
def recB : PostRecord := ⟨none, "second", none, none, [], [], "k"⟩

/-- One cycle containing both link-less fragments. -/
def envTwoLinkless : ScrapeEnv :=
  ⟨true, none, 10, 0, [⟨[fragA, fragB], 10, 10, 0, 0, 0⟩]⟩

/-- One cycle containing only the second link-less fragment. -/
def envOnlyB : ScrapeEnv := ⟨true, none, 10, 0, [⟨[fragB], 10, 10, 0, 0, 0⟩]⟩

/-- A cycle whose wall-clock sample lies far past any small deadline. -/
def envPastDeadline : ScrapeEnv :=
  ⟨true, none, 10, 0,
   [⟨[plainFrag "x" SubStepResult.fail0], 10, 11, 0, 0, 999⟩,
    ⟨[plainFrag "y" (SubStepResult.ok "d" "https://p/2" "n")], 11, 12, 0, 0, 1000⟩]⟩

/-- An environment with a denylist file and one admissible post. -/
def envWl : ScrapeEnv :=
  ⟨true, some (some [" spam.com ", ""]), 10, 0,
   [⟨[plainFrag "good" (SubStepResult.ok "d1" "https://ok.com/1" "nm")], 10, 10, 0, 0, 0⟩]⟩

/-- The record `envWl` yields. -/
def recWl : PostRecord :=
  ⟨some "nm", "good", some "https://ok.com/1", some "d1", [], [], "k"⟩

/-- A record whose link matches a denylist entry. -/
def recBad : PostRecord :=
  ⟨some "nm", "t", some "https://spam.com/x", some "d", [], [], "k"⟩

/-- A record with an absent link. -/
def recNoLink : PostRecord := ⟨none, "t", none, none, [], [], "k"⟩

/-- A fragment whose fragile sub-step failed after the date was read but
before the permalink click (`fail1`). -/
def frag8 : Fragment := plainFrag "body" (SubStepResult.fail1 "May 5")

/-- Environment serving only `frag8`. -/
def env8 : ScrapeEnv := ⟨true, none, 10, 0, [⟨[frag8], 10, 10, 0, 0, 0⟩]⟩

/-- The record `env8` yields: date present, link and name absent. -/
def rec8 : PostRecord := ⟨none, "body", none, some "May 5", [], [], "k"⟩

/-- A fragment with an emoji image, a real image, and one video. -/
def frag9 : Fragment :=
  ⟨true, "t", [some "https://c/emoji.php?e=1", some "https://c/p.jpg"], true,
   [some "https://v/1"], SubStepResult.fail0⟩

/-- The record extracted from `frag9`. -/
def rec9 : PostRecord :=
  ⟨none, "t", none, none, ["https://c/p.jpg"], [some "https://v/1"], "k"⟩

/-- A fragment with an empty-string image URL and a null video href. -/
def frag9c : Fragment := ⟨true, "t", [some ""], true, [none], SubStepResult.fail0⟩

/-- Environment serving only `frag9c`. -/
def env9 : ScrapeEnv := ⟨true, none, 10, 0, [⟨[frag9c], 10, 10, 0, 0, 0⟩]⟩

/-- The record `env9` yields: an empty image entry and a null video entry. -/
def rec9c : PostRecord := ⟨none, "t", none, none, [""], [none], "k"⟩

/-! ### State-shape lemmas: each admitted record appends exactly its link -/

theorem admitGate_fst (wl : List String) (st : List (Option String)) (r : PostRecord) :
    (admitGate wl st r).1 = st ++ ((admitGate wl st r).2.toList.map PostRecord.link) := by
  unfold admitGate
  split
  · simp
  · split <;> simp

theorem processFragment_fst (wl : List String) (kw : String)
    (st : List (Option String)) (f : Fragment) :
    (processFragment wl kw st f).1 =
      st ++ ((processFragment wl kw st f).2.toList.map PostRecord.link) := by
  unfold processFragment
  cases extractRecord kw f with
  | none => simp
  | some r => exact admitGate_fst wl st r

theorem processFragments_fst (wl : List String) (mp : Nat) (kw : String) :
    ∀ (fs : List Fragment) (st : List (Option String)),
      (processFragments wl mp kw st fs).1 =
        st ++ ((processFragments wl mp kw st fs).2.map PostRecord.link) := by
  intro fs
  induction fs with
  | nil => intro st; simp [processFragments]
  | cons f fs ih =>
    intro st
    rw [processFragments]
    split
    · simp
    · simp only [List.map_append, ih, processFragment_fst, List.append_assoc]

theorem runCycles_fst (wl : List String) (mp : Nat) (kw : String) (dl : Nat) :
    ∀ (cs : List ScrollCycle) (st : CrawlState),
      (runCycles wl mp kw dl st cs).2.url_crawled =
        st.url_crawled ++ ((runCycles wl mp kw dl st cs).1.map PostRecord.link) := by
  intro cs
  induction cs with
  | nil => intro st; simp [runCycles]
  | cons c cs ih =>
    intro st
    rw [runCycles]
    split
    · split
      · simpa using processFragments_fst wl mp kw c.fragments st.url_crawled
      · simp only [ih, processFragments_fst, List.map_append, List.append_assoc]
    · simp

/-! ### Length bounds: the `max_posts` cap -/

theorem processFragment_length (wl : List String) (kw : String)
    (st : List (Option String)) (f : Fragment) :
    (processFragment wl kw st f).1.length ≤ st.length + 1 := by
  rw [processFragment_fst]
  simp only [List.length_append, List.length_map]
  have : (processFragment wl kw st f).2.toList.length ≤ 1 := by
    cases (processFragment wl kw st f).2 <;> simp
  omega

theorem processFragments_length (wl : List String) (mp : Nat) (kw : String) :
    ∀ (fs : List Fragment) (st : List (Option String)),
      st.length ≤ mp → (processFragments wl mp kw st fs).1.length ≤ mp := by
  intro fs
  induction fs with
  | nil => intro st h; simpa [processFragments] using h
  | cons f fs ih =>
    intro st h
    rw [processFragments]
    split
    · simpa using h
    · have hlt : st.length < mp := by omega
      have h1 := processFragment_length wl kw st f
      exact ih _ (by omega)

theorem runCycles_url_length (wl : List String) (mp : Nat) (kw : String) (dl : Nat) :
    ∀ (cs : List ScrollCycle) (st : CrawlState),
      st.url_crawled.length ≤ mp →
      (runCycles wl mp kw dl st cs).2.url_crawled.length ≤ mp := by
  intro cs
  induction cs with
  | nil => intro st h; simpa [runCycles] using h
  | cons c cs ih =>
    intro st h
    rw [runCycles]
    split
    · have hp : (processFragments wl mp kw st.url_crawled c.fragments).1.length ≤ mp :=
        processFragments_length wl mp kw c.fragments st.url_crawled h
      split
      · simpa using hp
      · exact ih _ hp
    · simpa using h

/-! ### Nodup of the crawled-link list -/

theorem admitGate_nodup (wl : List String) (st : List (Option String)) (r : PostRecord)
    (h : st.Nodup) : (admitGate wl st r).1.Nodup := by
  unfold admitGate
  split
  · simpa using h
  · split
    · simpa using h
    · rename_i hmem
      simp [List.nodup_append, h, hmem]

theorem processFragment_nodup (wl : List String) (kw : String)
    (st : List (Option String)) (f : Fragment) (h : st.Nodup) :
    (processFragment wl kw st f).1.Nodup := by
  unfold processFragment
  cases extractRecord kw f with
  | none => simpa using h
  | some r => exact admitGate_nodup wl st r h

theorem processFragments_nodup (wl : List String) (mp : Nat) (kw : String) :
    ∀ (fs : List Fragment) (st : List (Option String)),
      st.Nodup → (processFragments wl mp kw st fs).1.Nodup := by
  intro fs
  induction fs with
  | nil => intro st h; simpa [processFragments] using h
  | cons f fs ih =>
    intro st h
    rw [processFragments]
    split
    · simpa using h
    · exact ih _ (processFragment_nodup wl kw st f h)

theorem runCycles_nodup (wl : List String) (mp : Nat) (kw : String) (dl : Nat) :
    ∀ (cs : List ScrollCycle) (st : CrawlState),
      st.url_crawled.Nodup → (runCycles wl mp kw dl st cs).2.url_crawled.Nodup := by
  intro cs
  induction cs with
  | nil => intro st h; simpa [runCycles] using h
  | cons c cs ih =>
    intro st h
    rw [runCycles]
    split
    · have hp := processFragments_nodup wl mp kw c.fragments st.url_crawled h
      split
      · simpa using hp
      · exact ih _ hp
    · simpa using h

/-! ### Gate soundness: what an admitted record satisfies -/

theorem admitGate_sound (wl : List String) (st : List (Option String)) (r r' : PostRecord)
    (h : (admitGate wl st r).2 = some r') :
    r' = r ∧ r.link ∉ st ∧
      (∀ s, r.link = some s → s ≠ "" → ∀ e ∈ wl, strIn e s = false) := by
  unfold admitGate at h
  split at h
  · simp at h
  · split at h
    · simp at h
    · rename_i hskip hmem
      refine ⟨by simpa using h.symm, hmem, ?_⟩
      intro s hs hne e he
      rw [hs] at hskip
      simp only [linkSkip, Bool.and_eq_true, not_and] at hskip
      have h1 : (s != "") = true := by simpa using hne
      have h2 := hskip h1
      cases hb : strIn e s with
      | false => rfl
      | true => exact absurd (List.any_eq_true.mpr ⟨e, he, hb⟩) h2

theorem processFragment_sound (wl : List String) (kw : String)
    (st : List (Option String)) (f : Fragment) (r : PostRecord)
    (h : (processFragment wl kw st f).2 = some r) :
    extractRecord kw f = some r ∧ r.link ∉ st ∧
      (∀ s, r.link = some s → s ≠ "" → ∀ e ∈ wl, strIn e s = false) := by
  unfold processFragment at h
  cases hx : extractRecord kw f with
  | none => rw [hx] at h; simp at h
  | some r0 =>
    rw [hx] at h
    obtain ⟨he, hmem, hwl⟩ := admitGate_sound wl st r0 r h
    subst he
    exact ⟨rfl, hmem, hwl⟩

theorem processFragments_sound (wl : List String) (mp : Nat) (kw : String) :
    ∀ (fs : List Fragment) (st : List (Option String)) (r : PostRecord),
      r ∈ (processFragments wl mp kw st fs).2 →
      ∀ s, r.link = some s → s ≠ "" → ∀ e ∈ wl, strIn e s = false := by
  intro fs
  induction fs with
  | nil => intro st r hr; simp [processFragments] at hr
  | cons f fs ih =>
    intro st r hr
    rw [processFragments] at hr
    split at hr
    · simp at hr
    · simp only [List.mem_append, Option.mem_toList, Option.mem_def] at hr
      rcases hr with h1 | h2
      · exact (processFragment_sound wl kw st f r h1).2.2
      · exact ih _ r h2

theorem runCycles_sound (wl : List String) (mp : Nat) (kw : String) (dl : Nat) :
    ∀ (cs : List ScrollCycle) (st : CrawlState) (r : PostRecord),
      r ∈ (runCycles wl mp kw dl st cs).1 →
      ∀ s, r.link = some s → s ≠ "" → ∀ e ∈ wl, strIn e s = false := by
  intro cs
  induction cs with
  | nil => intro st r hr; simp [runCycles] at hr
  | cons c cs ih =>
    intro st r hr
    rw [runCycles] at hr
    split at hr
    · split at hr
      · exact processFragments_sound wl mp kw c.fragments st.url_crawled r (by simpa using hr)
      · simp only [List.mem_append] at hr
        rcases hr with h1 | h2
        · exact processFragments_sound wl mp kw c.fragments st.url_crawled r (by simpa using h1)
        · exact ih _ r (by simpa using h2)
    · simp at hr

/-- The links of the yielded records, absent ones included, are pairwise
distinct: they are exactly the entries of the final `url_crawled` list. -/
theorem scrape_links_nodup (e : ScrapeEnv) (kw : String) (mp : Nat) :
    ((scrape_posts e kw mp).map PostRecord.link).Nodup := by
  unfold scrape_posts
  split
  · simp
  · have h1 := runCycles_fst (envWhitelist e) mp kw (e.t0 + mp * 5) e.cycles
      ⟨[], e.initHeight, 0⟩
    have h2 := runCycles_nodup (envWhitelist e) mp kw (e.t0 + mp * 5) e.cycles
      ⟨[], e.initHeight, 0⟩ (by simp)
    rw [h1] at h2
    simpa using h2

/-- C1: a keyword crawl with cap `max_posts = N` yields at most `N` records,
for every environment (so also when a single batch of visible fragments
holds more than `N` admissible posts); once the count of admitted records
reaches the cap, the fragment loop stops mid-batch and the collection loop
produces nothing further. -/
theorem cap_bound :
    (∀ (e : ScrapeEnv) (kw : String) (mp : Nat), (scrape_posts e kw mp).length ≤ mp) ∧
    (∀ (wl : List String) (mp : Nat) (kw : String) (st : List (Option String))
       (fs : List Fragment), mp ≤ st.length →
       processFragments wl mp kw st fs = (st, [])) ∧
    (∀ (wl : List String) (mp : Nat) (kw : String) (dl : Nat) (st : CrawlState)
       (cs : List ScrollCycle), mp ≤ st.url_crawled.length →
       runCycles wl mp kw dl st cs = ([], st)) := by
  refine ⟨?_, ?_, ?_⟩
  · intro e kw mp
    unfold scrape_posts
    split
    · simp
    · have h1 := runCycles_fst (envWhitelist e) mp kw (e.t0 + mp * 5) e.cycles
        ⟨[], e.initHeight, 0⟩
      have h2 := runCycles_url_length (envWhitelist e) mp kw (e.t0 + mp * 5) e.cycles
        ⟨[], e.initHeight, 0⟩ (by simp)
      rw [h1] at h2
      simpa using h2
  · intro wl mp kw st fs h
    cases fs with
    | nil => rfl
    | cons f fs =>
      rw [processFragments, if_pos h]
  · intro wl mp kw dl st cs h
    cases cs with
    | nil => rfl
    | cons c cs =>
      rw [runCycles, if_neg]
      rintro ⟨h1, -⟩
      omega

/-- Witness for C1: the cap bound at a concrete crawl, a fragment batch cut
short once the crawled list is full, and a collection loop that stops at its
boundary with the cap reached. -/
theorem cap_bound_witness :
    (scrape_posts envTwoLinkless "k" 5).length ≤ 5 ∧
    processFragments [] 1 "k" [some "u"] [fragA] = ([some "u"], []) ∧
    runCycles [] 1 "k" 9 ⟨[some "u"], 10, 0⟩ [stallCycle] = ([], ⟨[some "u"], 10, 0⟩) :=
  ⟨cap_bound.1 envTwoLinkless "k" 5,
   cap_bound.2.1 [] 1 "k" [some "u"] [fragA] (by decide),
   cap_bound.2.2 [] 1 "k" 9 ⟨[some "u"], 10, 0⟩ [stallCycle] (by decide)⟩

/-- C2: within the output of a single `scrape_posts` call, the present `link`
values are pairwise distinct (the emitted-link list starts empty at each
call, so nothing is enforced across calls). -/
theorem links_nodup (e : ScrapeEnv) (kw : String) (mp : Nat) :
    ((scrape_posts e kw mp).filterMap PostRecord.link).Nodup := by
  have h := scrape_links_nodup e kw mp
  have h2 : (scrape_posts e kw mp).filterMap PostRecord.link
      = ((scrape_posts e kw mp).map PostRecord.link).filterMap id := by
    rw [List.filterMap_map]
    rfl
  rw [h2]
  refine List.Nodup.filterMap ?_ h
  intro a a' b hb hb'
  rw [Option.mem_def] at hb hb'
  exact hb.trans hb'.symm

/-- C3: no yielded record has a present, non-empty link containing a
denylist entry as a substring; moreover a record whose non-empty link
matches an entry is rejected by the gate with the crawl state unchanged. -/
theorem whitelist_sound :
    (∀ (e : ScrapeEnv) (kw : String) (mp : Nat) (r : PostRecord),
      r ∈ scrape_posts e kw mp → ∀ s, r.link = some s → s ≠ "" →
      ∀ w ∈ envWhitelist e, strIn w s = false) ∧
    (∀ (wl : List String) (st : List (Option String)) (r : PostRecord) (s : String),
      r.link = some s → s ≠ "" → (∃ w ∈ wl, strIn w s = true) →
      admitGate wl st r = (st, none)) := by
  constructor
  · intro e kw mp r hr
    unfold scrape_posts at hr
    split at hr
    · simp at hr
    · exact runCycles_sound (envWhitelist e) mp kw (e.t0 + mp * 5) e.cycles
        ⟨[], e.initHeight, 0⟩ r hr
  · intro wl st r s hs hne hex
    unfold admitGate
    rw [if_pos]
    rw [hs]
    simp only [linkSkip, Bool.and_eq_true]
    refine ⟨by simpa using hne, ?_⟩
    obtain ⟨w, hw, hws⟩ := hex
    exact List.any_eq_true.mpr ⟨w, hw, hws⟩

/-- A duplicate-free list of optional values holds at most one `none`. -/
theorem countP_isNone_le_one {α : Type} :
    ∀ (l : List (Option α)), l.Nodup → l.countP (fun o => o.isNone) ≤ 1 := by
  intro l
  induction l with
  | nil => intro _; simp
  | cons o l ih =>
    intro h
    rw [List.nodup_cons] at h
    rw [List.countP_cons]
    cases o with
    | some a =>
      have := ih h.2
      simp only [Option.isNone_some, if_neg Bool.false_ne_true]
      omega
    | none =>
      have hz : l.countP (fun o => o.isNone) = 0 := by
        rw [List.countP_eq_zero]
        intro a ha
        cases a with
        | some b => simp
        | none => exact absurd ha h.1
      simp [hz]

/-- C10: at most one record of a single keyword crawl has an absent link —
the admitted absent link is recorded in `url_crawled`, so later link-less
records are duplicate-rejected; and every yielded record, link-less ones
included, occupies exactly one slot of the cap-counted `url_crawled` list. -/
theorem linkless_at_most_one :
    (∀ (e : ScrapeEnv) (kw : String) (mp : Nat),
      (scrape_posts e kw mp).countP (fun r => r.link.isNone) ≤ 1) ∧
    (∀ (wl : List String) (mp : Nat) (kw : String) (dl : Nat) (st : CrawlState)
      (cs : List ScrollCycle),
      (runCycles wl mp kw dl st cs).2.url_crawled.length =
        st.url_crawled.length + (runCycles wl mp kw dl st cs).1.length) := by
  constructor
  · intro e kw mp
    have h := scrape_links_nodup e kw mp
    have hc := countP_isNone_le_one _ h
    rw [List.countP_map] at hc
    refine le_trans (le_of_eq ?_) hc
    apply List.countP_congr
    intro r _
    simp [Function.comp]
  · intro wl mp kw dl st cs
    rw [runCycles_fst]
    simp

/-! ### Timeout: once a cycle samples a time past the deadline, nothing later counts -/

theorem runCycles_timeout_take (wl : List String) (mp : Nat) (kw : String) (dl : Nat) :
    ∀ (cs : List ScrollCycle) (i : Nat) (hi : i < cs.length) (st : CrawlState),
      dl < (cs.get ⟨i, hi⟩).timeNow →
      runCycles wl mp kw dl st cs = runCycles wl mp kw dl st (cs.take (i + 1)) := by
  intro cs
  induction cs with
  | nil => intro i hi st h; simp at hi
  | cons c cs ih =>
    intro i hi st h
    cases i with
    | zero =>
      have hc : dl < c.timeNow := h
      show runCycles wl mp kw dl st (c :: cs) = runCycles wl mp kw dl st (c :: [])
      rw [runCycles, runCycles]
      split <;> rfl
    | succ j =>
      have hj : j < cs.length := by simpa using hi
      have hc : dl < (cs.get ⟨j, hj⟩).timeNow := h
      show runCycles wl mp kw dl st (c :: cs)
          = runCycles wl mp kw dl st (c :: cs.take (j + 1))
      rw [runCycles, runCycles]
      split
      · by_cases ht : dl < c.timeNow
        · simp only [if_pos ht]
        · simp only [if_neg ht]
          rw [ih j hj _ hc]
      · rfl

/-- C6: the deadline is `t0 + max_posts * 5`, fixed at call start; the
timeout guard runs on every cycle, and as soon as a cycle's wall-clock
sample exceeds the deadline the crawl stops — dropping every later cycle
leaves the output unchanged, whatever the scroll state. -/
theorem timeout_guard (e : ScrapeEnv) (kw : String) (mp : Nat) (i : Nat)
    (hi : i < e.cycles.length)
    (h : e.t0 + mp * 5 < (e.cycles.get ⟨i, hi⟩).timeNow) :
    scrape_posts e kw mp =
      scrape_posts ⟨e.searchOk, e.whiteListFile, e.initHeight, e.t0,
        e.cycles.take (i + 1)⟩ kw mp := by
  have ht := runCycles_timeout_take (envWhitelist e) mp kw (e.t0 + mp * 5) e.cycles i hi
    ⟨[], e.initHeight, 0⟩ h
  show (if e.searchOk = false then ([] : List PostRecord)
      else (runCycles (envWhitelist e) mp kw (e.t0 + mp * 5)
        ⟨[], e.initHeight, 0⟩ e.cycles).1)
    = (if e.searchOk = false then ([] : List PostRecord)
      else (runCycles (envWhitelist e) mp kw (e.t0 + mp * 5)
        ⟨[], e.initHeight, 0⟩ (e.cycles.take (i + 1))).1)
  rw [ht]

/-- Witness for C6: in `envPastDeadline` with cap 1 the deadline is
`0 + 1 * 5 = 5`, the first cycle samples time 999 > 5, and the second cycle
(which holds a further post) contributes nothing. -/
theorem timeout_guard_witness :
    scrape_posts envPastDeadline "k" 1 =
      scrape_posts ⟨true, none, 10, 0,
        [⟨[plainFrag "x" SubStepResult.fail0], 10, 11, 0, 0, 999⟩]⟩ "k" 1 :=
  timeout_guard envPastDeadline "k" 1 0 (by decide) (by decide)

/-! ### Exhaustion after five height-stall cycles -/

theorem runCycles_stop (wl : List String) (mp : Nat) (kw : String) (dl : Nat)
    (st : CrawlState) (cs : List ScrollCycle) (h : 5 ≤ st.scroll_attempts) :
    runCycles wl mp kw dl st cs = ([], st) := by
  cases cs with
  | nil => rfl
  | cons c cs =>
    rw [runCycles, if_neg]
    rintro ⟨-, h2⟩
    omega

/-- C5 (amended): the crawl for a keyword terminates once five consecutive
cycles end with the measured page height equal to the height recorded at the
end of the previous cycle, even if fewer than `max_posts` records were found:
any cycles served after such a block contribute nothing.  The counter
compares heights only, so these five cycles may all have reported growth
through the visible-fragment count, and conversely a no-growth cycle whose
measured height differs from the previous cycle's recorded height resets the
counter. -/
theorem stall_termination (wl : List String) (mp : Nat) (kw : String) (dl : Nat) :
    ∀ (cs : List ScrollCycle) (st : CrawlState) (rest : List ScrollCycle),
      (∀ c ∈ cs, c.newHeight = st.last_height) →
      5 ≤ st.scroll_attempts + cs.length →
      runCycles wl mp kw dl st (cs ++ rest) = runCycles wl mp kw dl st cs := by
  intro cs
  induction cs with
  | nil =>
    intro st rest hh h5
    simp only [List.length_nil, Nat.add_zero] at h5
    rw [List.nil_append, runCycles_stop wl mp kw dl st rest h5]
    rfl
  | cons c cs ih =>
    intro st rest hh h5
    have hc : c.newHeight = st.last_height := hh c (List.mem_cons_self c cs)
    show runCycles wl mp kw dl st (c :: (cs ++ rest)) = runCycles wl mp kw dl st (c :: cs)
    rw [runCycles, runCycles]
    split
    · by_cases ht : dl < c.timeNow
      · simp only [if_pos ht]
      · simp only [if_neg ht]
        have hup : updateAttempts st c = st.scroll_attempts + 1 := by
          unfold updateAttempts
          rw [if_pos hc]
        have h1 : ∀ c' ∈ cs,
            c'.newHeight = ((⟨(processFragments wl mp kw st.url_crawled c.fragments).1,
              c.newHeight, updateAttempts st c⟩ : CrawlState).last_height) := by
          intro c' hc'
          show c'.newHeight = c.newHeight
          rw [hh c' (List.mem_cons_of_mem c hc'), hc]
        have h2 : 5 ≤ ((⟨(processFragments wl mp kw st.url_crawled c.fragments).1,
              c.newHeight, updateAttempts st c⟩ : CrawlState).scroll_attempts) + cs.length := by
          show 5 ≤ updateAttempts st c + cs.length
          rw [hup]
          simp only [List.length_cons] at h5
          omega
        rw [ih _ rest h1 h2]
    · rfl

/-- Witness for C5 (amended): with `scroll_attempts` already at 3 and two
height-stall cycles, a post-bearing third cycle is never reached. -/
theorem stall_termination_witness :
    runCycles [] 10 "k" 100 ⟨[], 10, 3⟩ ([stallCycle, stallCycle] ++ [lateCycle]) =
      runCycles [] 10 "k" 100 ⟨[], 10, 3⟩ [stallCycle, stallCycle] :=
  stall_termination [] 10 "k" 100 [stallCycle, stallCycle] ⟨[], 10, 3⟩ [lateCycle]
    (by decide) (by decide)

/-- C5 is false as stated: in `envStall` every scroll cycle reports growth in
the sense of `scrollForMore` (the visible-fragment count increases each
time), so no five consecutive no-growth reports ever occur — yet the crawl
ends after five cycles with the post of the sixth cycle never produced,
although the same post is produced when its cycle is served directly. -/
theorem stall_claim_false :
    (envStall.cycles.all (fun c => cycleGrew c)) = true ∧
    scrape_posts envStall "k" 10 = [] ∧
    scrape_posts envNoStall "k" 10 ≠ [] := by
  refine ⟨by decide, by decide, by decide⟩

/-! ### The scroll counter's actual step -/

/-- C7 (amended): on a cycle that is processed and does not time out, the
no-progress counter becomes `previous + 1` exactly when the cycle's measured
page height equals the previous cycle's recorded height, and resets to 0
exactly when the heights differ — growth of the visible-fragment count alone
neither resets it nor prevents the increment. -/
theorem scroll_counter_step (wl : List String) (mp : Nat) (kw : String) (dl : Nat)
    (st : CrawlState) (c : ScrollCycle)
    (hg : st.url_crawled.length < mp) (hs : st.scroll_attempts < 5)
    (ht : c.timeNow ≤ dl) :
    (runCycles wl mp kw dl st [c]).2.scroll_attempts =
      if c.newHeight = st.last_height then st.scroll_attempts + 1 else 0 := by
  rw [runCycles, if_pos ⟨hg, hs⟩, if_neg (by omega)]
  show (runCycles wl mp kw dl _ []).2.scroll_attempts = _
  rw [runCycles]
  rfl

/-- Witness for C7 (amended): a height change from 10 to 12 resets the
counter from 3 to 0. -/
theorem scroll_counter_step_witness :
    (runCycles [] 10 "k" 100 ⟨[], 10, 3⟩ [⟨[], 10, 12, 0, 0, 0⟩]).2.scroll_attempts = 0 :=
  (scroll_counter_step [] 10 "k" 100 ⟨[], 10, 3⟩ ⟨[], 10, 12, 0, 0, 0⟩
    (by decide) (by decide) (by decide)).trans (by decide)

/-- C7 is false as stated: `stallCycle` reports growth (fragment count grew
1 → 2), yet the counter does not reset to zero — it increments from 3 to 4,
because the code compares only `new_height` with `last_height`. -/
theorem scroll_counter_claim_false :
    cycleGrew stallCycle = true ∧
    (runCycles [] 10 "k" 100 ⟨[], 10, 3⟩ [stallCycle]).2.scroll_attempts = 4 := by
  exact ⟨by decide, by decide⟩

/-- Witness for C3: the admitted record of `envWl` has a link clean of the
denylist entry, and a record whose link matches the entry is rejected with
the state unchanged. -/
theorem whitelist_sound_witness :
    strIn "spam.com" "https://ok.com/1" = false ∧
    admitGate ["spam.com"] [] recBad = ([], none) := by
  constructor
  · exact whitelist_sound.1 envWl "k" 5 recWl (by decide) "https://ok.com/1" rfl
      (by decide) "spam.com" (by decide)
  · exact whitelist_sound.2 ["spam.com"] [] recBad "https://spam.com/x" rfl (by decide)
      ⟨"spam.com", by decide, by decide⟩

/-! ### Link-less records and the gate -/

/-- C4 (amended): an extracted record with an absent link always passes the
denylist check, but passes the duplicate check only while no absent link has
been recorded: the gate admits it and records `none` in the emitted-link
list exactly when `none` is not yet present, and rejects it otherwise. -/
theorem linkless_admission (wl : List String) (st : List (Option String))
    (r : PostRecord) (h : r.link = none) :
    admitGate wl st r = if none ∈ st then (st, none) else (st ++ [none], some r) := by
  unfold admitGate
  rw [h]
  simp [linkSkip]

/-- Witness for C4 (amended): a link-less record is admitted into a state
not yet holding `none`, and `none` is appended. -/
theorem linkless_admission_witness :
    admitGate ["w"] [some "a"] recNoLink = ([some "a", none], some recNoLink) :=
  (linkless_admission ["w"] [some "a"] recNoLink rfl).trans (by decide)

/-- C4 is false as stated: `fragA` and `fragB` are both extractable with
absent links, and `fragB` alone is admitted and yielded — but when both
appear in one crawl only the first is yielded; the second link-less record
is rejected by the duplicate check, because the absent link was itself
recorded in the emitted-link list. -/
theorem linkless_not_always_admitted :
    extractRecord "k" fragA = some recA ∧ recA.link = none ∧
    extractRecord "k" fragB = some recB ∧ recB.link = none ∧
    scrape_posts envOnlyB "k" 5 = [recB] ∧
    scrape_posts envTwoLinkless "k" 5 = [recA] := by
  exact ⟨by decide, rfl, by decide, rfl, by decide, by decide⟩

/-! ### Partial extraction keeps what was already read -/

/-- C8 (amended): for a fragment whose mandatory story body is found (and
whose media lookups do not abort it), the record is never discarded: it is
produced with the collected text, images and videos, and after an exception
in the permalink/timestamp/author sub-step the fields `link`/`date`/`name`
are absent only from the failure point onward — values assigned before the
exception (the date when the link click fails, the date and link when the
author lookup fails, all three when only the back-navigation fails) are
preserved in the record. -/
theorem partial_extraction_preserved (kw : String) (f : Fragment)
    (h1 : f.hasStory = true)
    (h2 : f.imgSrcs.any (fun s => s.isNone) = false)
    (h3 : f.videoAnchorOk = true) :
    ∃ r, extractRecord kw f = some r ∧
      r.text = pyStrip f.storyText ∧
      r.images = (f.imgSrcs.filterMap id).filter (fun s => !(strIn "emoji.php" s)) ∧
      r.videos = f.videoHrefs ∧
      (f.subStep = SubStepResult.fail0 →
        r.link = none ∧ r.date = none ∧ r.name = none) ∧
      (∀ d, f.subStep = SubStepResult.fail1 d →
        r.link = none ∧ r.date = some d ∧ r.name = none) ∧
      (∀ d l, f.subStep = SubStepResult.fail2 d l →
        r.link = some l ∧ r.date = some d ∧ r.name = none) ∧
      (∀ d l n, f.subStep = SubStepResult.fail3 d l n →
        r.link = some l ∧ r.date = some d ∧ r.name = some n) := by
  unfold extractRecord
  rw [h1, h2, h3]
  simp only [Bool.true_eq_false, if_false, Bool.false_eq_true]
  refine ⟨_, rfl, rfl, rfl, rfl, ?_, ?_, ?_, ?_⟩
  · intro hss; rw [hss]; exact ⟨rfl, rfl, rfl⟩
  · intro d hss; rw [hss]; exact ⟨rfl, rfl, rfl⟩
  · intro d l hss; rw [hss]; exact ⟨rfl, rfl, rfl⟩
  · intro d l n hss; rw [hss]; exact ⟨rfl, rfl, rfl⟩

/-- Witness for C8 (amended): `frag8` failed after its date was read; the
produced record keeps the date and the text while link stays absent. -/
theorem partial_extraction_preserved_witness :
    rec8.date = some "May 5" ∧ rec8.link = none ∧ rec8.text = "body" := by
  obtain ⟨r, hr, -, -, -, -, hf1, -, -⟩ :=
    partial_extraction_preserved "k" frag8 rfl rfl rfl
  obtain ⟨hl, hd, -⟩ := hf1 "May 5" rfl
  have he : r = rec8 := by
    have hx : extractRecord "k" frag8 = some rec8 := by decide
    rw [hr] at hx
    exact Option.some.inj hx
  rw [he] at hd hl
  exact ⟨hd, hl, by decide⟩

/-- C8 is false as stated: `frag8` raised inside the fragile sub-step (its
outcome is `fail1`, an exception before the permalink click), yet the
yielded record's `date` is present — only the fields not yet assigned at
the failure point are absent. -/
theorem partial_claim_false :
    frag8.subStep = SubStepResult.fail1 "May 5" ∧
    scrape_posts env8 "k" 5 = [rec8] ∧
    rec8.date = some "May 5" ∧ rec8.link = none ∧ rec8.name = none := by
  exact ⟨rfl, by decide, rfl, rfl, rfl⟩

/-! ### Media sequences of a yielded record -/

/-- C9 (amended): an extracted record's `images` are the present image URLs
in DOM order with every URL containing the emoji-glyph pattern `emoji.php`
removed (a null `src` aborts the whole fragment instead, so no null image is
ever produced, but empty strings are not filtered); `videos` is the anchors'
href sequence in DOM order taken verbatim, so it may contain null or empty
entries. -/
theorem media_entries (kw : String) (f : Fragment) (r : PostRecord)
    (h : extractRecord kw f = some r) :
    r.images = (f.imgSrcs.filterMap id).filter (fun s => !(strIn "emoji.php" s)) ∧
    (∀ s ∈ r.images, strIn "emoji.php" s = false) ∧
    r.videos = f.videoHrefs := by
  unfold extractRecord at h
  split at h
  · simp at h
  · split at h
    · simp at h
    · split at h
      · simp at h
      · have he := Option.some.inj h
        rw [← he]
        refine ⟨rfl, ?_, rfl⟩
        intro s hs
        rw [List.mem_filter] at hs
        simpa using hs.2

/-- Witness for C9 (amended): `frag9` produces `rec9`, whose image list
kept the single real photo (clean of `emoji.php`) and whose video list is
the fragment's href sequence. -/
theorem media_entries_witness :
    rec9.images = (frag9.imgSrcs.filterMap id).filter (fun s => !(strIn "emoji.php" s)) ∧
    strIn "emoji.php" "https://c/p.jpg" = false ∧
    rec9.videos = frag9.videoHrefs := by
  refine ⟨(media_entries "k" frag9 rec9 (by decide)).1,
    (media_entries "k" frag9 rec9 (by decide)).2.1 "https://c/p.jpg" (by decide),
    (media_entries "k" frag9 rec9 (by decide)).2.2⟩

/-- C9 is false as stated: a fragment with an empty-string image `src` and a
video anchor without an `href` yields a record whose `images` contain the
empty entry and whose `videos` contain a null entry. -/
theorem media_claim_false :
    scrape_posts env9 "k" 5 = [rec9c] ∧
    rec9c.images = [""] ∧ rec9c.videos = [none] := by
  exact ⟨by decide, rfl, rfl⟩

end FbScraper
